import Mathlib

/-!
Verification development for the VaporBoostV2 session orchestrator.

The JavaScript source is shallowly embedded: JS strings are lists of
characters (`Str`), `Date.now()` timestamps are naturals passed explicitly,
the Node `crypto` primitives are a parameter structure (`CryptoPrim`)
carrying their documented AES-256-GCM contract, the filesystem is a map
from paths to file contents, and every place the source draws randomness
(`crypto.randomBytes`, `Math.random`) takes the drawn value as an explicit
argument.
-/

/-- JS strings are modelled as lists of characters. -/
abbrev Str := List Char

/-- Characters of a string literal, the form used for concrete inputs. -/
def strOf (s : String) : Str := s.toList

/-- Model of JS `String.prototype.split(':')`: `n` colons yield `n + 1`
parts, in order. -/
def splitOnColon : Str → List Str
  | [] => [[]]
  | c :: rest =>
    if c = ':' then [] :: splitOnColon rest
    else
      match splitOnColon rest with
      | [] => [[c]]
      | p :: ps => (c :: p) :: ps

/-- Model of joining parts with `:` separators, as the template literals in
`CryptoManager.encrypt` do. -/
def joinColon : List Str → Str
  | [] => []
  | [p] => p
  | p :: ps => p ++ ':' :: joinColon ps

theorem splitOnColon_ne_nil (s : Str) : splitOnColon s ≠ [] := by
  cases s with
  | nil => simp [splitOnColon]
  | cons c rest =>
    simp only [splitOnColon]
    split
    · simp
    · cases h : splitOnColon rest <;> simp

theorem splitOnColon_no_colon (s : Str) (h : ':' ∉ s) : splitOnColon s = [s] := by
  induction s with
  | nil => rfl
  | cons c rest ih =>
    have hc : c ≠ ':' := fun hc => h (hc ▸ List.mem_cons_self c rest)
    have hr : ':' ∉ rest := fun hr => h (List.mem_cons_of_mem c hr)
    simp only [splitOnColon, if_neg hc, ih hr]

theorem splitOnColon_append (a rest : Str) (h : ':' ∉ a) :
    splitOnColon (a ++ ':' :: rest) = a :: splitOnColon rest := by
  induction a with
  | nil => simp [splitOnColon]
  | cons c t ih =>
    have hc : c ≠ ':' := fun hc => h (hc ▸ List.mem_cons_self c t)
    have ht : ':' ∉ t := fun ht => h (List.mem_cons_of_mem c ht)
    simp only [List.cons_append, splitOnColon, if_neg hc, List.append_eq]
    rw [ih ht]

theorem splitOnColon_join3 (a b c : Str)
    (ha : ':' ∉ a) (hb : ':' ∉ b) (hc : ':' ∉ c) :
    splitOnColon (joinColon [a, b, c]) = [a, b, c] := by
  simp only [joinColon]
  rw [splitOnColon_append a _ ha, splitOnColon_append b _ hb, splitOnColon_no_colon c hc]

theorem splitOnColon_join4 (a b c d : Str)
    (ha : ':' ∉ a) (hb : ':' ∉ b) (hc : ':' ∉ c) (hd : ':' ∉ d) :
    splitOnColon (joinColon [a, b, c, d]) = [a, b, c, d] := by
  simp only [joinColon]
  rw [splitOnColon_append a _ ha, splitOnColon_append b _ hb,
    splitOnColon_append c _ hc, splitOnColon_no_colon d hd]

theorem mem_joinColon3 (a b c : Str) :
    ':' ∈ joinColon [a, b, c] := by
  simp [joinColon]

/-- Colon-free escaping used by the concrete witness instance of the cipher
contract: `:` becomes `%c` and `%` becomes `%%`. -/
def escC : Str → Str
  | [] => []
  | c :: s =>
    if c = ':' then '%' :: 'c' :: escC s
    else if c = '%' then '%' :: '%' :: escC s
    else c :: escC s

/-- Inverse of `escC`. -/
def unescC : Str → Str
  | [] => []
  | [c] => [c]
  | a :: b :: s =>
    if a = '%' then (if b = 'c' then ':' else '%') :: unescC s
    else a :: unescC (b :: s)

theorem escC_no_colon (s : Str) : ':' ∉ escC s := by
  induction s with
  | nil => simp [escC]
  | cons c t ih =>
    simp only [escC]
    by_cases hc : c = ':'
    · simp only [if_pos hc, List.mem_cons]
      rintro (h | h | h)
      · exact absurd h (by decide)
      · exact absurd h (by decide)
      · exact ih h
    · by_cases hp : c = '%'
      · simp only [if_neg hc, if_pos hp, List.mem_cons]
        rintro (h | h | h)
        · exact absurd h (by decide)
        · exact absurd h (by decide)
        · exact ih h
      · simp only [if_neg hc, if_neg hp, List.mem_cons]
        rintro (h | h)
        · exact hc h.symm
        · exact ih h

theorem escC_eq_nil (t : Str) (h : escC t = []) : t = [] := by
  cases t with
  | nil => rfl
  | cons x xs =>
    exfalso
    by_cases h1 : x = ':'
    · simp [escC, h1] at h
    · by_cases h2 : x = '%'
      · simp [escC, h1, h2] at h
      · simp [escC, h1, h2] at h

theorem unescC_escC (s : Str) : unescC (escC s) = s := by
  induction s with
  | nil => rfl
  | cons c t ih =>
    simp only [escC]
    by_cases hc : c = ':'
    · simp [hc, unescC, ih]
    · by_cases hp : c = '%'
      · simp [hc, hp, unescC, ih]
      · simp only [if_neg hc, if_neg hp]
        cases he : escC t with
        | nil =>
          rw [escC_eq_nil t he]
          rfl
        | cons e es =>
          simp only [unescC, if_neg hp]
          rw [← he, ih]

/-- Contract of the Node `crypto` AES-256-GCM primitives consumed by
`CryptoManager` (an external dependency of the repository). `pbkdf2` models
`crypto.pbkdf2Sync(password, salt, 100000, 32, sha256)`; `encGCM key iv p`
models one `createCipheriv`/`update`/`final`/`getAuthTag` run and returns
the hex ciphertext and the hex tag; `decGCM key iv tag ct` models
`createDecipheriv`/`setAuthTag`/`update`/`final`, with `none` for a thrown
tag-verification (or other) error. Hex output never contains the `:`
separator, and decryption with the encrypting key, iv and tag recovers the
plaintext. -/
structure CryptoPrim where
  pbkdf2 : Str → Str → Str
  encGCM : Str → Str → Str → Str × Str
  decGCM : Str → Str → Str → Str → Option Str
  encGCM_ct_no_colon : ∀ k iv p, ':' ∉ (encGCM k iv p).1
  encGCM_tag_no_colon : ∀ k iv p, ':' ∉ (encGCM k iv p).2
  decGCM_encGCM : ∀ k iv p, decGCM k iv (encGCM k iv p).2 (encGCM k iv p).1 = some p

/-- CryptoManager.encrypt. `saltKey` is the `crypto.randomBytes(SALT_LENGTH)`
drawn at line 83 (used to derive the password key), `iv` the random iv, and
`saltEnv` the second `crypto.randomBytes(SALT_LENGTH)` drawn at line 97 and
embedded in the envelope; the salts are drawn only when a password is
given. Empty plaintext is returned as-is (`if (!plaintext) return
plaintext`). -/
def CryptoManager.encrypt (prim : CryptoPrim) (masterKey : Str) (plaintext : Str)
    (password : Option Str) (saltKey iv saltEnv : Str) : Str :=
  if plaintext = [] then plaintext
  else
    let key := match password with
      | some pw => prim.pbkdf2 pw saltKey
      | none => masterKey
    let ct := (prim.encGCM key iv plaintext).1
    let tag := (prim.encGCM key iv plaintext).2
    match password with
    | some _ => joinColon [saltEnv, iv, tag, ct]
    | none => joinColon [iv, tag, ct]

/-- Body of the `try` block of CryptoManager.decrypt: split the envelope on
`:`; four parts mean password-derived encryption (deriving the key from the
embedded salt; `pbkdf2Sync(null, ...)` throws when no password was passed),
otherwise the master key is used with `parts[0..2]` (fewer than three parts
leave `parts[2]` undefined and `decipher.update` throws). `none` stands for
a thrown error. -/
def CryptoManager.tryDecrypt (prim : CryptoPrim) (masterKey : Str)
    (ciphertext : Str) (password : Option Str) : Option Str :=
  let parts := splitOnColon ciphertext
  if parts.length = 4 then
    match password with
    | none => none
    | some pw =>
      prim.decGCM (prim.pbkdf2 pw (parts.getD 0 [])) (parts.getD 1 [])
        (parts.getD 2 []) (parts.getD 3 [])
  else if parts.length < 3 then none
  else prim.decGCM masterKey (parts.getD 0 []) (parts.getD 1 []) (parts.getD 2 [])

/-- CryptoManager.decrypt: inputs without a `:` separator are returned
unchanged; any error thrown inside the `try` block is caught and the input
is returned as-is (`return ciphertext; // Return as-is if can't decrypt`). -/
def CryptoManager.decrypt (prim : CryptoPrim) (masterKey : Str)
    (ciphertext : Str) (password : Option Str) : Str :=
  if ciphertext = [] ∨ ':' ∉ ciphertext then ciphertext
  else (CryptoManager.tryDecrypt prim masterKey ciphertext password).getD ciphertext

/-- Credential record of the on-disk accounts file; `encryptedMark` models
the `_encrypted` boolean marker (absent means `false`). -/
structure Account where
  username : Str
  password : Str
  sharedSecret : Str
  encryptedMark : Bool
deriving DecidableEq, Repr

/-- CryptoManager.encryptAccount: spreads the record, encrypts `password`,
encrypts `sharedSecret` when truthy (else sets it to the empty string) and
sets the `_encrypted` marker. Both inner `encrypt` calls pass no password,
so only the fresh ivs `ivPw`/`ivSS` are drawn. -/
def CryptoManager.encryptAccount (prim : CryptoPrim) (masterKey : Str)
    (account : Account) (ivPw ivSS : Str) : Account :=
  { account with
    password := CryptoManager.encrypt prim masterKey account.password none [] ivPw [],
    sharedSecret :=
      if account.sharedSecret ≠ [] then
        CryptoManager.encrypt prim masterKey account.sharedSecret none [] ivSS []
      else [],
    encryptedMark := true }

/-- CryptoManager.decryptAccount: records without the `_encrypted` marker
are returned unchanged; otherwise both sensitive fields are decrypted and
the marker is cleared. -/
def CryptoManager.decryptAccount (prim : CryptoPrim) (masterKey : Str)
    (account : Account) : Account :=
  if !account.encryptedMark then account
  else
    { account with
      password := CryptoManager.decrypt prim masterKey account.password none,
      sharedSecret :=
        if account.sharedSecret ≠ [] then
          CryptoManager.decrypt prim masterKey account.sharedSecret none
        else [],
      encryptedMark := false }

/-- Concrete instance of the cipher contract, used to evaluate the
embedding at concrete inputs: the ciphertext is the colon-escaped
plaintext and the tag ties key, iv and ciphertext together. -/
def toyPrim : CryptoPrim where
  pbkdf2 pw salt := pw ++ '/' :: salt
  encGCM k iv p := (escC p, escC (k ++ '/' :: iv ++ '/' :: p))
  decGCM k iv tag ct :=
    if tag = escC (k ++ '/' :: iv ++ '/' :: unescC ct) then some (unescC ct) else none
  encGCM_ct_no_colon := fun _ _ p => escC_no_colon p
  encGCM_tag_no_colon := fun _ _ _ => escC_no_colon _
  decGCM_encGCM := by
    intro k iv p
    simp [unescC_escC]

/-- RateLimiter state: the sliding window of recorded request timestamps
(`requests`), with its two constructor parameters. `Date.now()` values are
naturals; `now - t` uses truncated subtraction, which agrees with the JS
comparison `now - t < intervalMs` whenever `0 < intervalMs` (timestamps
are never drawn from the future of the current call). -/
structure RateLimiter where
  maxRequests : Nat
  intervalMs : Nat
  requests : List Nat
deriving DecidableEq, Repr

/-- RateLimiter.cleanup: lazily prune entries older than the window. -/
def RateLimiter.cleanup (rl : RateLimiter) (now : Nat) : RateLimiter :=
  { rl with requests := rl.requests.filter (fun t => now - t < rl.intervalMs) }

/-- RateLimiter.canMakeRequest: prune, then compare against the ceiling;
the pruning mutates the limiter, so the pruned state is returned too. -/
def RateLimiter.canMakeRequest (rl : RateLimiter) (now : Nat) : Bool × RateLimiter :=
  let rl2 := rl.cleanup now
  (decide (rl2.requests.length < rl2.maxRequests), rl2)

/-- One poll of RateLimiter.waitForSlot's `check` closure at time `now`:
when `canMakeRequest()` holds, `Date.now()` is pushed and the waiter
resolves (`true`); otherwise the state is left as pruned and the waiter
retries later (`false`). -/
def RateLimiter.tryAcquire (rl : RateLimiter) (now : Nat) : Bool × RateLimiter :=
  let r := rl.canMakeRequest now
  if r.1 then (true, { r.2 with requests := r.2.requests ++ [now] }) else (false, r.2)

/-- Sequence of `tryAcquire` polls at the given (non-decreasing) times;
returns the final limiter and the timestamps of the permitted calls. -/
def RateLimiter.runAcquires (rl : RateLimiter) : List Nat → RateLimiter × List Nat
  | [] => (rl, [])
  | t :: ts =>
    let r := rl.tryAcquire t
    let rest := r.2.runAcquires ts
    (rest.1, (if r.1 then [t] else []) ++ rest.2)

/-- Membership of a timestamp in the trailing window of length `w` ending
at time `bound`. -/
def inWindow (w bound t : Nat) : Bool := decide (t ≤ bound ∧ bound - t < w)

/-- ConcurrencyLimiter state as constructed (`running` counter plus the
FIFO queue of pending waiter resolve-functions, identified by ids). -/
structure ConcurrencyLimiter where
  maxConcurrent : Nat
  running : Nat
  queue : List Nat
deriving DecidableEq, Repr

/-- Scheduler-level state around the limiter: `woken` holds the ids whose
queued resolve-function has been called but whose `await` has not resumed
yet; `nextId` names fresh waiters. -/
structure LimSt where
  lim : ConcurrencyLimiter
  woken : List Nat
  nextId : Nat
deriving DecidableEq, Repr

/-- Events of ConcurrencyLimiter.execute. `submit` is a new call reaching
the `while (running >= max)` check; `finish ok` is a running task leaving
`await fn()` (normally when `ok`, by a thrown error otherwise) and running
the `finally` block; `resume i` is a woken waiter re-evaluating the while
condition. -/
inductive LimEv
  | submit
  | finish (ok : Bool)
  | resume (i : Nat)
deriving DecidableEq, Repr

/-- Transition function of ConcurrencyLimiter.execute. A submit with a
free slot increments `running` synchronously; otherwise the caller pushes
its resolver and suspends. The `finally` block decrements `running` and
resolves exactly the queue head, identically for normal and thrown exits.
A resumed waiter rechecks the condition, taking a slot or re-queueing at
the tail. -/
def LimSt.step (st : LimSt) : LimEv → LimSt
  | .submit =>
    if st.lim.running < st.lim.maxConcurrent then
      { st with lim := { st.lim with running := st.lim.running + 1 } }
    else
      { st with lim := { st.lim with queue := st.lim.queue ++ [st.nextId] },
                nextId := st.nextId + 1 }
  | .finish _ =>
    match st.lim.queue with
    | [] => { st with lim := { st.lim with running := st.lim.running - 1 } }
    | w :: rest =>
      { st with lim := { st.lim with running := st.lim.running - 1, queue := rest },
                woken := st.woken ++ [w] }
  | .resume i =>
    if i ∈ st.woken then
      let w2 := st.woken.erase i
      if st.lim.running < st.lim.maxConcurrent then
        { st with lim := { st.lim with running := st.lim.running + 1 }, woken := w2 }
      else
        { st with lim := { st.lim with queue := st.lim.queue ++ [i] }, woken := w2 }
    else st

/-- Initial scheduler state for a fresh `new ConcurrencyLimiter(max)`. -/
def LimSt.init (max : Nat) : LimSt :=
  { lim := { maxConcurrent := max, running := 0, queue := [] }, woken := [], nextId := 0 }

/-- Run a sequence of execute-events from the initial state. -/
def LimSt.run (max : Nat) (evs : List LimEv) : LimSt :=
  evs.foldl LimSt.step (LimSt.init max)

/-- BackoffManager state; delays are rationals (JS numbers on the values
the manager computes), and the per-key `attempts` Map is the pointwise
function it represents (`Map.get` with `|| 0` default, `Map.delete` on
reset). -/
structure BackoffManager where
  baseDelay : ℚ
  maxDelay : ℚ
  multiplier : ℚ
  attempts : Str → Option Nat

/-- BackoffManager.getAttempts: `this.attempts.get(key) || 0`. -/
def BackoffManager.getAttempts (bm : BackoffManager) (key : Str) : Nat :=
  (bm.attempts key).getD 0

/-- Deterministic part of BackoffManager.getDelay:
`Math.min(baseDelay * multiplier ** attempts, maxDelay)`. -/
def BackoffManager.delayOfAttempts (bm : BackoffManager) (n : Nat) : ℚ :=
  min (bm.baseDelay * bm.multiplier ^ n) bm.maxDelay

/-- BackoffManager.getDelay with the jitter draw `Math.random() * 1000`
passed explicitly (so `0 ≤ jitter < 1000`). -/
def BackoffManager.getDelay (bm : BackoffManager) (key : Str) (jitter : ℚ) : ℚ :=
  bm.delayOfAttempts (bm.getAttempts key) + jitter

/-- BackoffManager.recordFailure: increment the per-key attempt counter. -/
def BackoffManager.recordFailure (bm : BackoffManager) (key : Str) : BackoffManager :=
  { bm with attempts := fun q =>
      if q = key then some (bm.getAttempts key + 1) else bm.attempts q }

/-- BackoffManager.reset: `this.attempts.delete(key)`. -/
def BackoffManager.reset (bm : BackoffManager) (key : Str) : BackoffManager :=
  { bm with attempts := fun q => if q = key then none else bm.attempts q }

/-- JSON values, the domain of the persisted orchestrator state. -/
inductive JVal
  | null
  | bool (b : Bool)
  | num (n : Int)
  | str (s : Str)
  | arr (xs : List JVal)
  | obj (kvs : List (Str × JVal))
deriving Repr

/-- Keys stripped by the validator's sanitizeObject. -/
def dangerousKeys : List Str :=
  [strOf "__proto__", strOf "constructor", strOf "prototype"]

mutual

/-- Model of sanitizeObject (validator): primitives and `null` are returned
as-is; objects are rebuilt without dangerous keys, recursing into object
values; arrays also satisfy `typeof value === 'object'`, so the `for..in`
loop rebuilds them as plain objects keyed by index strings. -/
def sanitizeObject : JVal → JVal
  | .obj kvs => .obj (sanitizeEntries kvs)
  | .arr xs => .obj (sanitizeArrItems 0 xs)
  | v => v

/-- Entry loop of sanitizeObject over an object's own keys. -/
def sanitizeEntries : List (Str × JVal) → List (Str × JVal)
  | [] => []
  | (k, v) :: rest =>
    if k ∈ dangerousKeys then sanitizeEntries rest
    else
      (k, match v with
          | .obj kvs => .obj (sanitizeEntries kvs)
          | .arr xs => .obj (sanitizeArrItems 0 xs)
          | pv => pv) :: sanitizeEntries rest

/-- Entry loop of sanitizeObject over an array's index keys. -/
def sanitizeArrItems : Nat → List JVal → List (Str × JVal)
  | _, [] => []
  | i, x :: xs =>
    (strOf (Nat.repr i),
      match x with
      | .obj kvs => .obj (sanitizeEntries kvs)
      | .arr ys => .obj (sanitizeArrItems 0 ys)
      | pv => pv) :: sanitizeArrItems (i + 1) xs

end

/-- Content of the versioned snapshot envelope `{version, timestamp, state}`
written by StateManager.saveState. File contents are identified with their
parsed form; `JSON.stringify` is deterministic and injective on this
domain, so byte equality of files coincides with equality of snapshots. -/
structure Snapshot where
  version : Str
  timestamp : Str
  state : JVal
deriving Repr

/-- Filesystem model: a map from paths to the snapshot file stored there. -/
def FS := Str → Option Snapshot

/-- Primitive filesystem operations used by StateManager.saveState. -/
inductive FsOp
  | writeFile (p : Str) (content : Snapshot)
  | renameFile (src dst : Str)

/-- Effect of one primitive operation (`fs.writeFileSync`,
`fs.renameSync`). -/
def applyFsOp (fs : FS) : FsOp → FS
  | .writeFile p c => fun q => if q = p then some c else fs q
  | .renameFile src dst => fun q =>
      if q = dst then fs src else if q = src then none else fs q

/-- Effect of a sequence of operations, first to last. -/
def applyFsOps (fs : FS) (ops : List FsOp) : FS := ops.foldl applyFsOp fs

/-- Path of the current snapshot, `path.join(stateDir, 'current.json')`. -/
def StateManager.statePath : Str := strOf "data/state/current.json"

/-- Temp path used by saveState. -/
def StateManager.tempPath : Str := StateManager.statePath ++ strOf ".tmp"

/-- Snapshot assembled by saveState, with `new Date().toISOString()` passed
explicitly as `now`. -/
def StateManager.mkSnapshot (now : Str) (state : JVal) : Snapshot :=
  { version := strOf "1.0.0", timestamp := now, state := sanitizeObject state }

/-- Filesystem operations of StateManager.saveState in execution order:
write the sanitized, versioned snapshot to the temp path, then rename it
over the real path. -/
def StateManager.saveStateOps (now : Str) (state : JVal) : List FsOp :=
  [ .writeFile StateManager.tempPath (StateManager.mkSnapshot now state),
    .renameFile StateManager.tempPath StateManager.statePath ]

/-- Possible executions of the saveState `try` block: both filesystem calls
succeed, `writeFileSync` throws (leaving at most junk at the temp path), or
`renameSync` throws after a successful temp write. Thrown errors are caught
and reported as the `false` return value. -/
inductive SaveOutcome
  | ok
  | writeFailed (junk : Option Snapshot)
  | renameFailed

/-- StateManager.saveState: returns whether the save succeeded together
with the resulting filesystem. -/
def StateManager.saveState (fs : FS) (now : Str) (state : JVal) :
    SaveOutcome → Bool × FS
  | .ok => (true, applyFsOps fs (StateManager.saveStateOps now state))
  | .writeFailed junk =>
    (false, fun q => if q = StateManager.tempPath then junk else fs q)
  | .renameFailed =>
    (false, applyFsOp fs (.writeFile StateManager.tempPath (StateManager.mkSnapshot now state)))

/-- Settings object as validated by validateSettings, restricted to
well-typed JSON settings (each present field already has the type the
settings file documents, so the `typeof === 'boolean'` checks pass and
`parseInt` of the numeric fields is the identity); `none` models an absent
(`undefined`) field. -/
structure SettingsV where
  startupDelay : Option Int
  maxReconnectAttempts : Option Int
  autoReconnect : Option Bool
  invisibleMode : Option Bool
  saveMessages : Option Bool
  debug : Option Bool
deriving DecidableEq, Repr

/-- Model of validateSettings (validator lines 143-177): returns the
`valid` flag together with the accumulated error messages. -/
def validateSettings (s : SettingsV) : Bool × List Str :=
  let e1 : List Str :=
    match s.startupDelay with
    | none => []
    | some d =>
      if d < 500 ∨ 30000 < d then [strOf "startupDelay must be between 500-30000ms"] else []
  let e2 : List Str :=
    match s.maxReconnectAttempts with
    | none => []
    | some a =>
      if a < 0 ∨ 50 < a then [strOf "maxReconnectAttempts must be between 0-50"] else []
  let errors := e1 ++ e2
  (errors.isEmpty, errors)

/-- Leading-digit run parser backing the model of JS parseInt. -/
def parseDigits (s : Str) : Option Nat :=
  let ds := s.takeWhile Char.isDigit
  if ds = [] then none
  else some (ds.foldl (fun a c => 10 * a + (c.toNat - 48)) 0)

/-- Model of JS `parseInt` on the trimmed menu input: optional sign then a
leading run of digits; `none` models `NaN`. -/
def parseIntJS (s : Str) : Option Int :=
  let t := s.dropWhile (fun c => c = ' ')
  match t with
  | '-' :: rest => (parseDigits rest).map (fun n => -(n : Int))
  | '+' :: rest => (parseDigits rest).map (fun n => (n : Int))
  | _ => (parseDigits t).map (fun n => (n : Int))

/-- In-memory settings record handled by the settings menu. -/
structure Settings where
  autoReconnect : Bool
  invisibleMode : Bool
  saveMessages : Bool
  debug : Bool
  startupDelay : Int
  maxReconnectAttempts : Int
deriving DecidableEq, Repr

/-- Case 5 of VaporBooster.settingsMenu (accountHandler lines 823-836): the
startup-delay input is parsed with `parseInt` and applied only when it is a
number within 1000-10000; otherwise the loaded settings are left untouched.
The Bool reports whether the new value was applied and saved (the
`config.saveSettings` write is modelled as succeeding). -/
def VaporBooster.settingsMenuStartupDelay (s : Settings) (input : Str) : Settings × Bool :=
  match parseIntJS input with
  | some n => if 1000 ≤ n ∧ n ≤ 10000 then ({ s with startupDelay := n }, true) else (s, false)
  | none => (s, false)

/-- Session lifecycle states stored in `this.accountStates`. -/
inductive AccState
  | connecting
  | authenticating
  | active
  | error
  | disconnected
  | failed
  | disconnecting
deriving DecidableEq, Repr

/-- External steam-user client handle; `steamID` is `null` (`none`) when the
client holds no live identity. -/
structure SteamClient where
  steamID : Option Str
deriving DecidableEq, Repr

/-- Entry of `this.clients`: the client handle (possibly absent) and the
account name the entry was registered under. -/
structure ClientData where
  client : Option SteamClient
  accountName : Str
deriving DecidableEq, Repr

/-- The two maps of VaporBooster that the active-session readers consult,
as association lists in insertion order. -/
structure BoosterSt where
  accountStates : List (Str × AccState)
  clients : List (Str × ClientData)
deriving DecidableEq, Repr

/-- Map lookup (`Map.prototype.get`), `none` for a missing key. -/
def lookupA {α : Type} (m : List (Str × α)) (k : Str) : Option α :=
  (m.find? (fun e => decide (e.1 = k))).map (fun e => e.2)

/-- Active count of VaporBooster.showMenu (line 148):
`Array.from(this.accountStates.values()).filter(s => s === 'active').length`. -/
def VaporBooster.mainMenuActiveCount (b : BoosterSt) : Nat :=
  ((b.accountStates.map Prod.snd).filter (fun s => decide (s = AccState.active))).length

/-- Truthiness of `data.client && data.client.steamID`. -/
def clientSteamIDLive (c : Option SteamClient) : Bool :=
  match c with
  | none => false
  | some cl => cl.steamID.isSome

/-- The `isOnline` predicate of VaporBooster.getSidebarInfo (line 206):
`data.client && data.client.steamID && state === 'active'`, where `state`
is `this.accountStates.get(name) || 'unknown'`. -/
def VaporBooster.sidebarIsOnline (b : BoosterSt) (name : Str) (data : ClientData) : Bool :=
  clientSteamIDLive data.client &&
    decide (lookupA b.accountStates name = some AccState.active)

/-- The `activeClients` filter of VaporBooster.showBoostingPanel (lines
453-457): `state === 'active' && data.client && data.client.steamID`. -/
def VaporBooster.boostingPanelClients (b : BoosterSt) : List ClientData :=
  (b.clients.map Prod.snd).filter (fun d =>
    decide (lookupA b.accountStates d.accountName = some AccState.active) &&
      clientSteamIDLive d.client)

/-- Active count shown by the boosting panel. -/
def VaporBooster.boostingPanelActiveCount (b : BoosterSt) : Nat :=
  (VaporBooster.boostingPanelClients b).length

/-- Modelled from the spec: "a session is counted as active in any
aggregate/report iff `lifecycleState == active` AND the underlying external
handle reports a live identity (a non-null steamID)". -/
def specSessionActive (b : BoosterSt) (name : Str) (d : ClientData) : Bool :=
  decide (lookupA b.accountStates name = some AccState.active) &&
    clientSteamIDLive d.client

/-- Modelled from the spec: the aggregate active count over the managed
sessions under the dual-check predicate. -/
def specActiveCount (b : BoosterSt) : Nat :=
  (b.clients.filter (fun e => specSessionActive b e.1 e.2)).length

/-- Concrete booster state: one session whose lifecycle state is still
`active` while its client handle has a `null` steamID. -/
def exBooster : BoosterSt :=
  { accountStates := [(strOf "alice", AccState.active)],
    clients := [(strOf "alice", { client := some { steamID := none }, accountName := strOf "alice" })] }

/-- Modelled from the spec: `startupDelay: int(500-30000 ms)`. -/
def specDelayInRange : Option Int → Bool
  | none => true
  | some d => decide (500 ≤ d ∧ d ≤ 30000)

/-- Modelled from the spec: `maxReconnectAttempts: int(0-50)`. -/
def specAttemptsInRange : Option Int → Bool
  | none => true
  | some a => decide (0 ≤ a ∧ a ≤ 50)

/-- Acceptance condition actually enforced by the settings menu's
startup-delay prompt: a parsed number within 1000-10000. -/
def menuDelayAccepts (input : Str) : Bool :=
  match parseIntJS input with
  | none => false
  | some n => decide (1000 ≤ n ∧ n ≤ 10000)

/-- Concrete backoff manager with the constructor defaults
(`baseDelay = 1000`, `maxDelay = 60000`, `multiplier = 2`) and an empty
attempt table. -/
def exBackoff : BackoffManager :=
  { baseDelay := 1000, maxDelay := 60000, multiplier := 2, attempts := fun _ => none }

/-- Concrete password-mode envelope: `encrypt('secret', 'pw')` under the
concrete cipher instance, with key-derivation salt `aa`, iv `11` and the
separately drawn envelope salt `bb`. -/
def exEnvelopePw : Str :=
  CryptoManager.encrypt toyPrim (strOf "K") (strOf "secret") (some (strOf "pw"))
    (strOf "aa") (strOf "11") (strOf "bb")

/-- Concrete tampered master-key envelope: iv `11`, a tag that cannot
verify, and the ciphertext of `secret`. -/
def exTampered : Str := joinColon [strOf "11", strOf "zz", escC (strOf "secret")]

/-- Concrete account record already carrying the `_encrypted` marker. -/
def exAccountEnc : Account :=
  { username := strOf "u", password := strOf "p", sharedSecret := [], encryptedMark := true }

/-- Concrete plaintext account record without the marker. -/
def exAccountPlain : Account :=
  { username := strOf "u", password := strOf "p", sharedSecret := [], encryptedMark := false }

/-- Concrete settings object whose startupDelay is 600. -/
def exSettingsV600 : SettingsV :=
  { startupDelay := some 600, maxReconnectAttempts := none,
    autoReconnect := none, invisibleMode := none, saveMessages := none, debug := none }

/-- Concrete in-memory settings as loaded from the defaults. -/
def exSettings : Settings :=
  { autoReconnect := true, invisibleMode := false, saveMessages := true,
    debug := false, startupDelay := 2000, maxReconnectAttempts := 5 }

/-- Claim C1, counterexample: in `exBooster` the single session still has
lifecycle state `active` while its client handle reports a `null` steamID;
the main-menu active count (accountHandler line 148) counts it anyway,
disagreeing with the spec's dual-check aggregate, so not every reader
applies the conjunction. -/
theorem mainMenuCount_ne_specActiveCount :
    VaporBooster.mainMenuActiveCount exBooster = 1
    ∧ specActiveCount exBooster = 0
    ∧ VaporBooster.mainMenuActiveCount exBooster ≠ specActiveCount exBooster := by
  decide

/-- Claim C1 (amended): the boosting-panel filter and the sidebar `isOnline`
predicate each decide activeness by the conjunction
`lifecycleState == active AND client.steamID non-null`, but the main-menu
active count of showMenu uses the lifecycle state alone. -/
theorem activeReaders_dual_check (b : BoosterSt) :
    VaporBooster.boostingPanelClients b
        = (b.clients.map Prod.snd).filter (fun d => specSessionActive b d.accountName d)
    ∧ (∀ name d, VaporBooster.sidebarIsOnline b name d = specSessionActive b name d)
    ∧ VaporBooster.mainMenuActiveCount b
        = ((b.accountStates.map Prod.snd).filter (fun s => decide (s = AccState.active))).length := by
  refine ⟨rfl, fun name d => ?_, rfl⟩
  unfold VaporBooster.sidebarIsOnline specSessionActive
  exact Bool.and_comm _ _

/-- Claim C2, evaluation at the failing input: with a caller-supplied
password, encrypt derives the key from one random salt but embeds a second,
independently drawn salt in the envelope, so decrypt derives a different
key, tag verification fails, and the envelope itself comes back instead of
the plaintext: the password round-trip does not recover `secret`. -/
theorem decrypt_encrypt_password_roundtrip_fails :
    CryptoManager.decrypt toyPrim (strOf "K") exEnvelopePw (some (strOf "pw")) = exEnvelopePw
    ∧ exEnvelopePw ≠ strOf "secret" := by
  decide

/-- Claim C3, counterexample: on a tampered envelope whose tag cannot
verify, decrypt catches the error and returns the unmodified input — the
very value the claim says is never returned — and the result is
indistinguishable from the already-plaintext passthrough. -/
theorem decrypt_tamper_returns_input :
    CryptoManager.tryDecrypt toyPrim (strOf "K") exTampered none = none
    ∧ CryptoManager.decrypt toyPrim (strOf "K") exTampered none = exTampered := by
  decide

/-- Claim C3 (amended): when the decipher run fails (tag verification
included), decrypt catches the error, logs it, and returns its input
unchanged, exactly as it does for separator-free plaintext input; the
failure is not surfaced distinguishably to the caller. -/
theorem decrypt_failure_returns_input (prim : CryptoPrim) (mk s : Str) (pw : Option Str)
    (h : CryptoManager.tryDecrypt prim mk s pw = none) :
    CryptoManager.decrypt prim mk s pw = s := by
  unfold CryptoManager.decrypt
  split
  · rfl
  · simp [h]

/-- Witness for the amended C3 theorem at the concrete tampered envelope. -/
theorem decrypt_failure_returns_input_witness :
    CryptoManager.decrypt toyPrim (strOf "K") exTampered none = exTampered :=
  decrypt_failure_returns_input toyPrim (strOf "K") exTampered none (by decide)

/-- Claim C4, counterexample: on a record whose `_encrypted` marker is
already true, encryptAccount still passes the password field through
encrypt (changing it), instead of detecting the marker and refusing. -/
theorem encryptAccount_reencrypts_marked :
    exAccountEnc.encryptedMark = true
    ∧ (CryptoManager.encryptAccount toyPrim (strOf "K") exAccountEnc (strOf "11") (strOf "22")).password
        = CryptoManager.encrypt toyPrim (strOf "K") exAccountEnc.password none [] (strOf "11") []
    ∧ (CryptoManager.encryptAccount toyPrim (strOf "K") exAccountEnc (strOf "11") (strOf "22")).password
        ≠ exAccountEnc.password := by
  decide

/-- Claim C4 (amended): encryptAccount never inspects the `_encrypted`
marker — it encrypts the password field and sets the marker on every call,
including calls on records already marked; the marker only guards
decryptAccount, which returns unmarked records unchanged. -/
theorem encryptAccount_no_marker_check (prim : CryptoPrim) (mk : Str) (acct : Account)
    (ivPw ivSS : Str) :
    (CryptoManager.encryptAccount prim mk acct ivPw ivSS).password
        = CryptoManager.encrypt prim mk acct.password none [] ivPw []
    ∧ (CryptoManager.encryptAccount prim mk acct ivPw ivSS).encryptedMark = true
    ∧ (acct.encryptedMark = false → CryptoManager.decryptAccount prim mk acct = acct) := by
  refine ⟨rfl, rfl, fun h => ?_⟩
  unfold CryptoManager.decryptAccount
  simp [h]

/-- Witness for the amended C4 theorem at a concrete unmarked record. -/
theorem encryptAccount_no_marker_check_witness :
    CryptoManager.decryptAccount toyPrim (strOf "K") exAccountPlain = exAccountPlain :=
  (encryptAccount_no_marker_check toyPrim (strOf "K") exAccountPlain [] []).2.2 rfl

/-- Claim C10: decrypt is a total function of its input — separator-free
input is returned unchanged, and otherwise the result is either the input
itself (every error thrown in the `try` block is caught, never propagated)
or the successfully deciphered plaintext. -/
theorem decrypt_total_never_throws (prim : CryptoPrim) (mk s : Str) (pw : Option Str) :
    (':' ∉ s → CryptoManager.decrypt prim mk s pw = s)
    ∧ (CryptoManager.decrypt prim mk s pw = s
       ∨ ∃ p, CryptoManager.tryDecrypt prim mk s pw = some p
            ∧ CryptoManager.decrypt prim mk s pw = p) := by
  constructor
  · intro h
    unfold CryptoManager.decrypt
    rw [if_pos (Or.inr h)]
  · unfold CryptoManager.decrypt
    split
    · exact Or.inl rfl
    · cases htd : CryptoManager.tryDecrypt prim mk s pw with
      | none => exact Or.inl (by simp)
      | some p => exact Or.inr ⟨p, rfl, by simp⟩

/-- Witness for C10 at a concrete separator-free input. -/
theorem decrypt_total_never_throws_witness :
    CryptoManager.decrypt toyPrim (strOf "K") (strOf "abc") none = strOf "abc" :=
  (decrypt_total_never_throws toyPrim (strOf "K") (strOf "abc") none).1 (by decide)

/-- Claim C9, counterexample: startupDelay 600 lies inside the validator's
500-30000 range (validateSettings accepts it), yet the settings menu — the
only path that applies a startup-delay input — rejects it, because the menu
enforces its own 1000-10000 range and never calls validateSettings. -/
theorem startupDelay600_valid_but_rejected :
    (validateSettings exSettingsV600).1 = true
    ∧ VaporBooster.settingsMenuStartupDelay exSettings (strOf "600") = (exSettings, false) := by
  decide

/-- Claim C9 (amended): validateSettings flags startupDelay outside
500-30000 and maxReconnectAttempts outside 0-50 and accepts in-range
values, but the settings-menu path applies its own 1000-10000 check to the
startup-delay input instead; whenever the menu rejects an input, the loaded
settings are left unchanged. -/
theorem settings_validation_ranges (s : SettingsV) (prev : Settings) (input : Str) :
    (validateSettings s).1
      = (specDelayInRange s.startupDelay && specAttemptsInRange s.maxReconnectAttempts)
    ∧ (VaporBooster.settingsMenuStartupDelay prev input).2 = menuDelayAccepts input
    ∧ ((VaporBooster.settingsMenuStartupDelay prev input).2 = false →
        (VaporBooster.settingsMenuStartupDelay prev input).1 = prev) := by
  refine ⟨?_, ?_, ?_⟩
  · unfold validateSettings specDelayInRange specAttemptsInRange
    cases s.startupDelay with
    | none =>
      cases s.maxReconnectAttempts with
      | none => rfl
      | some a =>
        by_cases h : a < 0 ∨ 50 < a
        · have hr : decide (0 ≤ a ∧ a ≤ 50) = false := decide_eq_false (by omega)
          simp [h, hr]
        · have hr : decide (0 ≤ a ∧ a ≤ 50) = true := decide_eq_true (by omega)
          simp [h, hr]
    | some d =>
      cases s.maxReconnectAttempts with
      | none =>
        by_cases h : d < 500 ∨ 30000 < d
        · have hr : decide (500 ≤ d ∧ d ≤ 30000) = false := decide_eq_false (by omega)
          simp [h, hr]
        · have hr : decide (500 ≤ d ∧ d ≤ 30000) = true := decide_eq_true (by omega)
          simp [h, hr]
      | some a =>
        by_cases h : d < 500 ∨ 30000 < d
        · have hr : decide (500 ≤ d ∧ d ≤ 30000) = false := decide_eq_false (by omega)
          by_cases h2 : a < 0 ∨ 50 < a
          · have hr2 : decide (0 ≤ a ∧ a ≤ 50) = false := decide_eq_false (by omega)
            simp [h, h2, hr, hr2]
          · have hr2 : decide (0 ≤ a ∧ a ≤ 50) = true := decide_eq_true (by omega)
            simp [h, h2, hr, hr2]
        · have hr : decide (500 ≤ d ∧ d ≤ 30000) = true := decide_eq_true (by omega)
          by_cases h2 : a < 0 ∨ 50 < a
          · have hr2 : decide (0 ≤ a ∧ a ≤ 50) = false := decide_eq_false (by omega)
            simp [h, h2, hr, hr2]
          · have hr2 : decide (0 ≤ a ∧ a ≤ 50) = true := decide_eq_true (by omega)
            simp [h, h2, hr, hr2]
  · unfold VaporBooster.settingsMenuStartupDelay menuDelayAccepts
    cases parseIntJS input with
    | none => rfl
    | some n =>
      by_cases h : 1000 ≤ n ∧ n ≤ 10000
      · simp [h]
      · simp [h]
  · intro h
    unfold VaporBooster.settingsMenuStartupDelay at h ⊢
    cases hpi : parseIntJS input with
    | none => simp [hpi]
    | some n =>
      rw [hpi] at h
      by_cases hn : 1000 ≤ n ∧ n ≤ 10000
      · obtain ⟨hn1, hn2⟩ := hn
        simp [hn1, hn2] at h
      · simp [hn]

/-- Witness for the amended C9 theorem at a concrete rejected input. -/
theorem settings_validation_ranges_witness :
    (VaporBooster.settingsMenuStartupDelay exSettings (strOf "abc")).1 = exSettings :=
  (settings_validation_ranges exSettingsV600 exSettings (strOf "abc")).2.2 (by decide)

/-- Claim C5: saveState writes the sanitized, versioned snapshot to the
temp path and only then renames it over the real path, so executing any
strict prefix of its filesystem operations (an interruption before the
rename) leaves the previously persisted snapshot byte-for-byte unchanged;
on any write or rename error saveState returns false and the real path is
untouched; on success it returns true with the new snapshot in place. -/
theorem saveState_crash_safe (fs : FS) (now : Str) (state : JVal) (o : SaveOutcome) (k : Nat) :
    (k < (StateManager.saveStateOps now state).length →
      applyFsOps fs ((StateManager.saveStateOps now state).take k) StateManager.statePath
        = fs StateManager.statePath)
    ∧ ((StateManager.saveState fs now state o).1 = false →
        (StateManager.saveState fs now state o).2 StateManager.statePath
          = fs StateManager.statePath)
    ∧ (StateManager.saveState fs now state SaveOutcome.ok).1 = true
    ∧ (StateManager.saveState fs now state SaveOutcome.ok).2 StateManager.statePath
        = some (StateManager.mkSnapshot now state) := by
  have hne : ¬(StateManager.statePath = StateManager.tempPath) := by decide
  refine ⟨?_, ?_, rfl, ?_⟩
  · intro hk
    simp only [StateManager.saveStateOps, List.length_cons, List.length_nil] at hk
    interval_cases k
    · rfl
    · simp [StateManager.saveStateOps, applyFsOps, applyFsOp, hne]
  · cases o with
    | ok =>
      intro h
      simp [StateManager.saveState] at h
    | writeFailed junk =>
      intro _
      simp [StateManager.saveState, hne]
    | renameFailed =>
      intro _
      simp [StateManager.saveState, applyFsOp, hne]
  · simp [StateManager.saveState, StateManager.saveStateOps, applyFsOps, applyFsOp, hne]

/-- Witness for C5 on the empty filesystem: interruption after the temp
write leaves the real path absent, and a failed write reports false with
the real path untouched. -/
theorem saveState_crash_safe_witness :
    (applyFsOps (fun _ => none) ((StateManager.saveStateOps [] JVal.null).take 1)
        StateManager.statePath = none)
    ∧ ((StateManager.saveState (fun _ => none) [] JVal.null
          (SaveOutcome.writeFailed none)).2 StateManager.statePath = none) :=
  ⟨(saveState_crash_safe (fun _ => none) [] JVal.null SaveOutcome.ok 1).1 (by decide),
   (saveState_crash_safe (fun _ => none) [] JVal.null
      (SaveOutcome.writeFailed none) 1).2.1 rfl⟩

theorem LimSt.step_max (st : LimSt) (e : LimEv) :
    (st.step e).lim.maxConcurrent = st.lim.maxConcurrent := by
  cases e with
  | submit =>
    simp only [LimSt.step]
    split <;> rfl
  | finish ok =>
    simp only [LimSt.step]
    cases st.lim.queue <;> rfl
  | resume i =>
    simp only [LimSt.step]
    split
    · split <;> rfl
    · rfl

theorem LimSt.step_running_le (st : LimSt) (e : LimEv)
    (h : st.lim.running ≤ st.lim.maxConcurrent) :
    (st.step e).lim.running ≤ (st.step e).lim.maxConcurrent := by
  cases e with
  | submit =>
    simp only [LimSt.step]
    split
    · next hlt => exact hlt
    · exact h
  | finish ok =>
    simp only [LimSt.step]
    cases st.lim.queue with
    | nil => exact le_trans (Nat.sub_le _ _) h
    | cons w rest => exact le_trans (Nat.sub_le _ _) h
  | resume i =>
    simp only [LimSt.step]
    split
    · split
      · next hlt => exact hlt
      · exact h
    · exact h

theorem LimSt.foldl_running_le (evs : List LimEv) (st : LimSt)
    (h : st.lim.running ≤ st.lim.maxConcurrent) :
    (evs.foldl LimSt.step st).lim.running ≤ (evs.foldl LimSt.step st).lim.maxConcurrent := by
  induction evs generalizing st with
  | nil => exact h
  | cons e rest ih => exact ih _ (LimSt.step_running_le st e h)

theorem LimSt.foldl_max (evs : List LimEv) (st : LimSt) :
    (evs.foldl LimSt.step st).lim.maxConcurrent = st.lim.maxConcurrent := by
  induction evs generalizing st with
  | nil => rfl
  | cons e rest ih => rw [List.foldl_cons, ih, LimSt.step_max]

/-- Claim C7: over every event sequence the running counter never exceeds
maxConcurrent; a task finishing — on the normal and on the throwing exit
path alike, since the release sits in `finally` — decrements `running` by
one and wakes at most one queued waiter, namely the queue head (arrival
order); the limiter effects of the two exit paths are identical. -/
theorem concurrencyLimiter_contract (max : Nat) (evs : List LimEv) (st : LimSt) (b : Bool) :
    (LimSt.run max evs).lim.running ≤ max
    ∧ (st.step (LimEv.finish b)).lim.running = st.lim.running - 1
    ∧ (st.step (LimEv.finish b)).woken = st.woken ++ st.lim.queue.take 1
    ∧ (st.step (LimEv.finish b)).lim.queue = st.lim.queue.drop 1
    ∧ st.step (LimEv.finish true) = st.step (LimEv.finish false) := by
  refine ⟨?_, ?_, ?_, ?_, rfl⟩
  · have h0 : (LimSt.init max).lim.running ≤ (LimSt.init max).lim.maxConcurrent :=
      Nat.zero_le _
    have h1 := LimSt.foldl_running_le evs (LimSt.init max) h0
    have h2 := LimSt.foldl_max evs (LimSt.init max)
    unfold LimSt.run
    rw [h2] at h1
    exact h1
  · simp only [LimSt.step]
    cases st.lim.queue <;> rfl
  · simp only [LimSt.step]
    cases st.lim.queue <;> simp
  · simp only [LimSt.step]
    cases st.lim.queue <;> rfl

/-- Claim C8: getDelay is the deterministic
`min(baseDelay * multiplier ^ attempts(key), maxDelay)` plus the bounded
jitter draw; the deterministic part is non-decreasing in the attempt count
(multiplier at least 1) up to the ceiling; after reset(key) the attempt
count is 0 and the delay returns to the base delay plus jitter. -/
theorem backoff_delay_contract (bm : BackoffManager) (key : Str) (j : ℚ)
    (hm : 1 ≤ bm.multiplier) (hb : 0 ≤ bm.baseDelay) (hbm : bm.baseDelay ≤ bm.maxDelay)
    (hj0 : 0 ≤ j) (hj1 : j < 1000) :
    BackoffManager.getDelay bm key j
        = min (bm.baseDelay * bm.multiplier ^ bm.getAttempts key) bm.maxDelay + j
    ∧ (∀ m n : Nat, m ≤ n → bm.delayOfAttempts m ≤ bm.delayOfAttempts n)
    ∧ bm.delayOfAttempts (bm.getAttempts key) ≤ BackoffManager.getDelay bm key j
    ∧ BackoffManager.getDelay bm key j < bm.delayOfAttempts (bm.getAttempts key) + 1000
    ∧ (bm.reset key).getAttempts key = 0
    ∧ BackoffManager.getDelay (bm.reset key) key j = bm.baseDelay + j := by
  refine ⟨rfl, ?_, ?_, ?_, ?_, ?_⟩
  · intro m n hmn
    unfold BackoffManager.delayOfAttempts
    exact min_le_min (mul_le_mul_of_nonneg_left (pow_le_pow_right₀ hm hmn) hb) le_rfl
  · unfold BackoffManager.getDelay
    linarith
  · unfold BackoffManager.getDelay
    linarith
  · simp [BackoffManager.reset, BackoffManager.getAttempts]
  · unfold BackoffManager.getDelay BackoffManager.delayOfAttempts BackoffManager.getAttempts
    simp [BackoffManager.reset, pow_zero, mul_one, min_eq_left hbm]

/-- Witness for C8 at the constructor defaults. -/
theorem backoff_delay_contract_witness :
    BackoffManager.getDelay (exBackoff.reset (strOf "a")) (strOf "a") 500
      = exBackoff.baseDelay + 500 :=
  (backoff_delay_contract exBackoff (strOf "a") 500 (by norm_num [exBackoff])
    (by norm_num [exBackoff]) (by norm_num [exBackoff]) (by norm_num)
    (by norm_num)).2.2.2.2.2

theorem RateLimiter.runAcquires_cons (rl : RateLimiter) (now : Nat) (ts : List Nat) :
    rl.runAcquires (now :: ts)
      = (((rl.tryAcquire now).2.runAcquires ts).1,
         (if (rl.tryAcquire now).1 then [now] else [])
           ++ ((rl.tryAcquire now).2.runAcquires ts).2) := rfl

theorem RateLimiter.tryAcquire_permitted (rl : RateLimiter) (now : Nat)
    (h : (rl.requests.filter (fun t => decide (now - t < rl.intervalMs))).length
          < rl.maxRequests) :
    rl.tryAcquire now
      = (true, { maxRequests := rl.maxRequests, intervalMs := rl.intervalMs,
                 requests := rl.requests.filter (fun t => decide (now - t < rl.intervalMs))
                   ++ [now] }) := by
  unfold RateLimiter.tryAcquire RateLimiter.canMakeRequest RateLimiter.cleanup
  simp [h]

theorem RateLimiter.tryAcquire_denied (rl : RateLimiter) (now : Nat)
    (h : ¬ (rl.requests.filter (fun t => decide (now - t < rl.intervalMs))).length
          < rl.maxRequests) :
    rl.tryAcquire now
      = (false, { maxRequests := rl.maxRequests, intervalMs := rl.intervalMs,
                  requests := rl.requests.filter (fun t => decide (now - t < rl.intervalMs)) }) := by
  unfold RateLimiter.tryAcquire RateLimiter.canMakeRequest RateLimiter.cleanup
  simp [h]

theorem RateLimiter.runAcquires_cons_permitted (rl : RateLimiter) (now : Nat) (ts : List Nat)
    (h : (rl.requests.filter (fun t => decide (now - t < rl.intervalMs))).length
          < rl.maxRequests) :
    (rl.runAcquires (now :: ts)).2
      = [now] ++ (RateLimiter.runAcquires
          { maxRequests := rl.maxRequests, intervalMs := rl.intervalMs,
            requests := rl.requests.filter (fun t => decide (now - t < rl.intervalMs)) ++ [now] }
          ts).2 := by
  rw [RateLimiter.runAcquires_cons, RateLimiter.tryAcquire_permitted rl now h]
  simp

theorem RateLimiter.runAcquires_cons_denied (rl : RateLimiter) (now : Nat) (ts : List Nat)
    (h : ¬ (rl.requests.filter (fun t => decide (now - t < rl.intervalMs))).length
          < rl.maxRequests) :
    (rl.runAcquires (now :: ts)).2
      = (RateLimiter.runAcquires
          { maxRequests := rl.maxRequests, intervalMs := rl.intervalMs,
            requests := rl.requests.filter (fun t => decide (now - t < rl.intervalMs)) }
          ts).2 := by
  rw [RateLimiter.runAcquires_cons, RateLimiter.tryAcquire_denied rl now h]
  simp

theorem filter_window_mono (hist : List Nat) (W cur now : Nat)
    (hhist : ∀ t ∈ hist, t ≤ cur) (hcn : cur ≤ now) :
    (hist.filter (fun t => decide (cur - t < W))).filter (fun t => decide (now - t < W))
      = hist.filter (fun t => decide (now - t < W)) := by
  induction hist with
  | nil => rfl
  | cons a l ih =>
    have hl : ∀ t ∈ l, t ≤ cur := fun t ht => hhist t (List.mem_cons_of_mem a ht)
    by_cases h1 : cur - a < W
    · by_cases h2 : now - a < W
      · simp [List.filter_cons, h1, h2, ih hl]
      · simp [List.filter_cons, h1, h2, ih hl]
    · have h2 : ¬ now - a < W := fun h2x =>
        h1 (Nat.lt_of_le_of_lt (Nat.sub_le_sub_right hcn a) h2x)
      simp [List.filter_cons, h1, h2, ih hl]

theorem runAcquires_window_aux (W maxR : Nat) (hW : 0 < W) (times : List Nat) :
    ∀ (cur : Nat) (hist : List Nat) (rl : RateLimiter),
      rl.maxRequests = maxR → rl.intervalMs = W →
      rl.requests = hist.filter (fun t => decide (cur - t < W)) →
      (∀ t ∈ hist, t ≤ cur) →
      List.Pairwise (fun a b => a ≤ b) times →
      (∀ s ∈ times, cur ≤ s) →
      (∀ T, List.countP (inWindow W T) hist ≤ maxR) →
      ∀ T, List.countP (inWindow W T) (hist ++ (rl.runAcquires times).2) ≤ maxR := by
  induction times with
  | nil =>
    intro cur hist rl hmax hint hreq hhist hsort hcur hbound T
    simpa [RateLimiter.runAcquires] using hbound T
  | cons now ts ih =>
    intro cur hist rl hmax hint hreq hhist hsort hcur hbound T
    have hcn : cur ≤ now := hcur now (List.mem_cons_self _ _)
    have hts : ∀ s ∈ ts, now ≤ s := (List.pairwise_cons.mp hsort).1
    have hsort2 : List.Pairwise (fun a b => a ≤ b) ts := (List.pairwise_cons.mp hsort).2
    have hprune : rl.requests.filter (fun t => decide (now - t < rl.intervalMs))
        = hist.filter (fun t => decide (now - t < W)) := by
      rw [hreq, hint]
      exact filter_window_mono hist W cur now hhist hcn
    have hhist2 : ∀ t ∈ hist, t ≤ now := fun t ht => le_trans (hhist t ht) hcn
    by_cases hperm : (hist.filter (fun t => decide (now - t < W))).length < maxR
    · rw [RateLimiter.runAcquires_cons_permitted rl now ts (by rw [hprune, hmax]; exact hperm)]
      rw [hprune, hmax, hint, ← List.append_assoc]
      refine ih now (hist ++ [now])
        { maxRequests := maxR, intervalMs := W,
          requests := hist.filter (fun t => decide (now - t < W)) ++ [now] }
        rfl rfl ?_ ?_ hsort2 hts ?_ T
      · rw [List.filter_append]
        simp [List.filter_cons, Nat.sub_self, hW]
      · intro t ht
        rcases List.mem_append.mp ht with h | h
        · exact hhist2 t h
        · rw [List.mem_singleton.mp h]
      · intro T2
        rw [List.countP_append]
        by_cases hin : inWindow W T2 now = true
        · have hx : now ≤ T2 ∧ T2 - now < W := of_decide_eq_true hin
          have h1 : List.countP (inWindow W T2) hist
              ≤ List.countP (fun t => decide (now - t < W)) hist := by
            apply List.countP_mono_left
            intro x _ hpx
            have hx3 : x ≤ T2 ∧ T2 - x < W := of_decide_eq_true hpx
            exact decide_eq_true (Nat.lt_of_le_of_lt (Nat.sub_le_sub_right hx.1 x) hx3.2)
          have h2 := List.countP_eq_length_filter (fun t => decide (now - t < W)) hist
          have h3 : List.countP (inWindow W T2) [now] ≤ 1 := by
            rw [List.countP_cons]
            split <;> simp [List.countP_nil]
          omega
        · have h3 : List.countP (inWindow W T2) [now] = 0 := by
            rw [List.countP_cons]
            simp [List.countP_nil, Bool.of_not_eq_true hin]
          rw [h3]
          simpa using hbound T2
    · rw [RateLimiter.runAcquires_cons_denied rl now ts (by rw [hprune, hmax]; exact hperm)]
      rw [hprune, hmax, hint]
      exact ih now hist
        { maxRequests := maxR, intervalMs := W,
          requests := hist.filter (fun t => decide (now - t < W)) }
        rfl rfl rfl hhist2 hsort2 hts hbound T

/-- Claim C6: starting from a fresh limiter, for every non-decreasing
sequence of poll times with a positive window, the permitted timestamps
falling in any trailing window of length `intervalMs` never exceed
`maxRequests`; moreover one poll is permitted iff the pruned timestamp
count is strictly below `maxRequests`, and the current time is appended to
the window exactly when the poll is permitted. -/
theorem rateLimiter_sliding_window (maxR W : Nat) (times : List Nat)
    (hW : 0 < W) (hsorted : List.Pairwise (fun a b => a ≤ b) times) :
    (∀ T, List.countP (inWindow W T)
        ((RateLimiter.runAcquires
          { maxRequests := maxR, intervalMs := W, requests := [] } times).2) ≤ maxR)
    ∧ (∀ (rl : RateLimiter) (now : Nat),
        ((rl.tryAcquire now).1
            = decide ((rl.cleanup now).requests.length < rl.maxRequests))
        ∧ (rl.tryAcquire now).2.requests
            = (rl.cleanup now).requests
              ++ (if (rl.tryAcquire now).1 = true then [now] else [])) := by
  constructor
  · intro T
    have h := runAcquires_window_aux W maxR hW times 0 [] ⟨maxR, W, []⟩ rfl rfl rfl
      (by intro t ht; cases ht) hsorted (fun s _ => Nat.zero_le s)
      (by intro T2; simp [List.countP_nil]) T
    simpa using h
  · intro rl now
    have hmax : (rl.cleanup now).maxRequests = rl.maxRequests := rfl
    by_cases h : (rl.cleanup now).requests.length < rl.maxRequests
    · constructor <;>
        (unfold RateLimiter.tryAcquire RateLimiter.canMakeRequest
         simp [hmax, h])
    · constructor <;>
        (unfold RateLimiter.tryAcquire RateLimiter.canMakeRequest
         simp [hmax, h])

/-- Witness for C6 at a concrete poll sequence. -/
theorem rateLimiter_sliding_window_witness :
    List.countP (inWindow 3 2)
      ((RateLimiter.runAcquires
        { maxRequests := 2, intervalMs := 3, requests := [] } [1, 2, 2, 9]).2) ≤ 2 :=
  (rateLimiter_sliding_window 2 3 [1, 2, 2, 9] (by decide) (by decide)).1 2
